import Mathlib

/-!
Verification of the PEAD runner core (scripts/run_yahoo_pead.py).

The development shallowly embeds the pure core of the script:
  - pick_expiries        (expiry bracketing around the 30-day target)
  - nearest_atm_iv       (nearest-to-spot implied-volatility selection)
  - iv30_from_yahoo      (30-day IV via variance-time interpolation),
    embedded as iv30_core / iv30 / iv30val over a typed chain snapshot,
    with provider faults modelled by an Except layer (the try/except)
  - gapfill_and_clv      (gap-fill percentage and close-location value)
  - simple_pead          (heuristic drift scorer)

Python machine floats are idealised as exact rationals; round(x, n) is
modelled by roundTo, int() truncation toward zero by pyInt.
-/

/-- Python int() applied to a real: truncation toward zero. -/
def pyInt (x : ℚ) : ℤ := if 0 ≤ x then ⌊x⌋ else ⌈x⌉

/-- Python round(x, n): round to n decimal places (ties idealised). -/
def roundTo (n : ℕ) (x : ℚ) : ℚ := ((round (x * 10 ^ n) : ℤ) : ℚ) / 10 ^ n

/-- One row of an options table: optional strike and implied volatility,
mirroring opt.get("strike") / opt.get("impliedVolatility"). -/
structure OptionQuote where
  strike : Option ℚ
  impliedVolatility : Option ℚ

/-- One step of the nearest_atm_iv scan: state is (best_iv, best_diff).
Rows with a missing strike, a missing IV, or an exactly-zero IV are skipped. -/
def atmStep (spot : ℚ) (st : Option ℚ × ℚ) (opt : OptionQuote) : Option ℚ × ℚ :=
  match opt.strike, opt.impliedVolatility with
  | some k, some iv =>
      if iv = 0 then st
      else if |k - spot| < st.2 then (some iv, |k - spot|) else st
  | _, _ => st

/-- nearest_atm_iv from the script: scan the rows keeping the IV whose strike
is strictly closer to spot than any seen so far (initial distance 1e18). -/
def nearest_atm_iv (options : List OptionQuote) (spot : ℚ) : Option ℚ :=
  (options.foldl (atmStep spot) (none, 1e18)).1

/-- Combination of the call-side and put-side picks, line 73/74 of the script:
iv = c if p is None else ((c+p)/2 if c else p), with Python truthiness
(None and 0 falsy) on c. -/
def combineIV (c p : Option ℚ) : Option ℚ :=
  match p with
  | none => c
  | some pv =>
    match c with
    | some cv => if cv = 0 then some pv else some ((cv + pv) / 2)
    | none => some pv

/-- The call and put tables of one expiry bucket. -/
structure ExpiryOptions where
  calls : List OptionQuote
  puts : List OptionQuote

/-- The IV attributed to one expiry bucket: combine the nearest-to-spot
call-side and put-side picks. -/
def expiry_iv (b : ExpiryOptions) (spot : ℚ) : Option ℚ :=
  combineIV (nearest_atm_iv b.calls spot) (nearest_atm_iv b.puts spot)

/-- Time to expiry in days, (e - t_now)/86400.0. -/
def dayOf (t_now e : ℤ) : ℚ := ((e : ℚ) - (t_now : ℚ)) / 86400

/-- pick_expiries from the script: keep expiries strictly more than one day
out, split the day counts at the 30-day target, take the last listed member
of the below set (else the first of the above set) for e1 and the first
listed member of the above set (else the last of the below set) for e2,
converting each day count back to a unix timestamp via int(). -/
def pick_expiries (exp_unix : List ℤ) (t_now : ℤ) : Option ℤ × Option ℤ :=
  let days := (exp_unix.filter (fun e => t_now + 86400 < e)).map (dayOf t_now)
  if days.isEmpty then (none, none) else
  let below := days.filter (fun d => d ≤ 30)
  let above := days.filter (fun d => 30 ≤ d)
  let toE := fun d => t_now + pyInt (d * 86400)
  ((below.getLast?.orElse fun _ => above.head?).map toE,
   (above.head?.orElse fun _ => below.getLast?).map toE)

/-- Lines 78-82 of the script: the quantity under the final square root,
max(1e-10, varT / Tt), from variance-time interpolation between
(iv1, T1) and (iv2, T2) toward Tt = 30/365.25. -/
def interpVar (iv1 T1 iv2 T2 : ℚ) : ℚ :=
  let Tt : ℚ := 30 / 365.25
  let var1 := iv1 * iv1 * T1
  let var2 := iv2 * iv2 * T2
  let alpha := if |T2 - T1| > 1e-9 then (Tt - T1) / (T2 - T1) else 0.5
  let vart := var1 + (var2 - var1) * alpha
  max 1e-10 (vart / Tt)

/-- Result of the estimator before taking real square roots: either an IV
returned directly (single-sided case, lines 76/77) or the radicand of the
interpolated branch (line 82). -/
inductive IVRet where
  | direct (iv : ℚ)
  | interp (radicand : ℚ)
deriving DecidableEq

/-- The quote block of the chain JSON: optional spot price and symbol. -/
structure QuoteInfo where
  regularMarketPrice : Option ℚ
  symbol : Option String

/-- The result block of the chain JSON: optional quote block and optional
expirationDates list (res.get("expirationDates", [])). -/
structure ChainResult where
  quote : Option QuoteInfo
  expirationDates : Option (List ℤ)

/-- The top-level chain JSON; result = none models any malformed shape at
chain_json["optionChain"]["result"][0] (a raised KeyError / IndexError). -/
structure ChainJson where
  result : Option ChainResult

/-- An exception raised inside the try block: a missing required field, a
malformed payload, or a fault of the per-expiry fetch collaborator. -/
inductive Fault where
  | raised
deriving DecidableEq

/-- Body of iv30_from_yahoo inside its try block. Fallible JSON accesses and
the per-expiry fetch are in the Except layer; .ok none is the explicit
unavailable (None) result. -/
def iv30_core (chain : ChainJson) (fetch : String → ℤ → Except Fault ExpiryOptions)
    (t_now : ℤ) : Except Fault (Option IVRet) :=
  match chain.result with
  | none => .error .raised
  | some res =>
    match res.quote with
    | none => .error .raised
    | some quote =>
      match quote.regularMarketPrice with
      | none => .ok none
      | some spot =>
        match pick_expiries (res.expirationDates.getD []) t_now with
        | (some e1, some e2) =>
          if e1 = 0 ∨ e2 = 0 then .ok none else
          match quote.symbol with
          | none => .error .raised
          | some sym =>
            match fetch sym e1, fetch sym e2 with
            | .ok b1, .ok b2 =>
              match expiry_iv b1 spot, expiry_iv b2 spot with
              | none, none => .ok none
              | none, some v2 => .ok (some (.direct v2))
              | some v1, none => .ok (some (.direct v1))
              | some v1, some v2 =>
                .ok (some (.interp (interpVar v1
                  (max 1e-6 (((e1 : ℚ) - (t_now : ℚ)) / 31557600))
                  v2
                  (max 1e-6 (((e2 : ℚ) - (t_now : ℚ)) / 31557600)))))
            | .error f, _ => .error f
            | _, .error f => .error f
        | _ => .ok none

/-- iv30_from_yahoo: the try/except wrapper mapping every raised fault to the
unavailable result None. -/
def iv30 (chain : ChainJson) (fetch : String → ℤ → Except Fault ExpiryOptions)
    (t_now : ℤ) : Option IVRet :=
  match iv30_core chain fetch t_now with
  | .ok v => v
  | .error _ => none

/-- The real number the script returns for a non-None result: the direct IV
itself, or the square root of the interpolated radicand. -/
noncomputable def IVRet.val : IVRet → ℝ
  | .direct iv => (iv : ℝ)
  | .interp r => Real.sqrt (r : ℝ)

/-- The value of the estimator as a real number (None mapped to none). -/
noncomputable def iv30val (chain : ChainJson)
    (fetch : String → ℤ → Except Fault ExpiryOptions) (t_now : ℤ) : Option ℝ :=
  (iv30 chain fetch t_now).map IVRet.val

/-- The interpolated-branch estimate as a function of the two IVs and their
year fractions: sqrt(max(1e-10, varT / Tt)). -/
noncomputable def interp_iv30 (iv1 T1 iv2 T2 : ℚ) : ℝ :=
  Real.sqrt ((interpVar iv1 T1 iv2 T2 : ℚ) : ℝ)

/-- One daily OHLC bar (o = open, h = high, l = low, c = close). -/
structure OHLC where
  o : ℚ
  h : ℚ
  l : ℚ
  c : ℚ

/-- gapfill_and_clv from the script: gap magnitude, directional retracement,
gap-fill percentage capped at 150, and close-location value, rounded to 2
and 3 decimal places respectively. -/
def gapfill_and_clv (prev_close : ℚ) (d0 : OHLC) : ℚ × ℚ :=
  let gap := if prev_close ≤ d0.o then d0.o - prev_close else prev_close - d0.o
  let retr := if prev_close ≤ d0.o then d0.o - d0.l else d0.h - d0.o
  let gapFillPct := if gap > 1e-9 then min 150 (100 * (retr / gap)) else 0
  let clv := if d0.l < d0.h then (2 * d0.c - d0.h - d0.l) / (d0.h - d0.l) else 0
  (roundTo 2 gapFillPct, roundTo 3 clv)

/-- Contribution of clv to the score: +1.0 if clv >= 0 else -0.5, 0 if absent. -/
def clv_term : Option ℚ → ℚ
  | none => 0
  | some c => if 0 ≤ c then 1 else -0.5

/-- Contribution of gapFillPct: +1.0 if <= 33.0 else -0.5, 0 if absent. -/
def gap_term : Option ℚ → ℚ
  | none => 0
  | some g => if g ≤ 33 then 1 else -0.5

/-- Contribution of ivCrush: +1.0 in [-40,-5], -0.5 below -50, else 0. -/
def ivcrush_term : Option ℚ → ℚ
  | none => 0
  | some x => if -40 ≤ x ∧ x ≤ -5 then 1 else if x < -50 then -0.5 else 0

/-- The additive score of simple_pead: each present input contributes its
band value, absent inputs contribute nothing. -/
def pead_score (clv gapFillPct ivCrush : Option ℚ) : ℚ :=
  clv_term clv + gap_term gapFillPct + ivcrush_term ivCrush

/-- simple_pead from the script: clamp 2*score to [-8,12] and round it,
truncate pead∓3 to integers for the range, and clamp the rounded
0.35 + 0.1*score to [0.1, 0.8] for the confidence. -/
def simple_pead (clv gapFillPct ivCrush : Option ℚ) : ℚ × (ℤ × ℤ) × ℚ :=
  let score := pead_score clv gapFillPct ivCrush
  let pead := max (-8) (min 12 (2 * score))
  let rng := (pyInt (pead - 3), pyInt (pead + 3))
  let conf := max 0.1 (min 0.8 (roundTo 2 (0.35 + 0.1 * score)))
  (roundTo 2 pead, rng, conf)

example : pick_expiries [864000, 3456000] 0 = (some 864000, some 3456000) := by
  norm_num [pick_expiries, dayOf, pyInt, List.filter, Option.orElse]

example : pick_expiries [1728000, 864000] 0 = (some 864000, some 864000) := by
  norm_num [pick_expiries, dayOf, pyInt, List.filter, Option.orElse]

example : gapfill_and_clv 3 ⟨6, 6, 61/10, 6⟩ = (-333/100, 0) := by
  norm_num [gapfill_and_clv, roundTo, round_eq]

example : simple_pead (some (1/2)) (some 20) (some (-20)) = (6, (3, 9), 13/20) := by
  norm_num [simple_pead, pead_score, clv_term, gap_term, ivcrush_term, roundTo, round_eq, pyInt]

/-! ## Helper lemmas about the numeric primitives -/

theorem pyInt_intCast (k : ℤ) : pyInt (k : ℚ) = k := by
  unfold pyInt
  split <;> simp

theorem roundTo_mono (n : ℕ) {x y : ℚ} (hxy : x ≤ y) : roundTo n x ≤ roundTo n y := by
  unfold roundTo
  have hpow : (0:ℚ) < 10 ^ n := by positivity
  have hr : round (x * 10 ^ n) ≤ round (y * 10 ^ n) := by
    rw [round_eq, round_eq]
    exact Int.floor_mono (by nlinarith)
  exact (div_le_div_iff_of_pos_right hpow).mpr (by exact_mod_cast hr)

theorem roundTo_intCast (n : ℕ) (k : ℤ) :
    roundTo n ((k : ℚ) / 10 ^ n) = (k : ℚ) / 10 ^ n := by
  unfold roundTo
  rw [div_mul_cancel₀ _ (by positivity : (10:ℚ) ^ n ≠ 0), round_intCast]

theorem roundTo_int (n : ℕ) (k : ℤ) : roundTo n (k : ℚ) = (k : ℚ) := by
  have h := roundTo_intCast n (k * 10 ^ n)
  have hpow : (10:ℚ) ^ n ≠ 0 := by positivity
  rw [show ((k * 10 ^ n : ℤ) : ℚ) / 10 ^ n = (k : ℚ) by push_cast; field_simp] at h
  exact h

theorem roundTo_zero (n : ℕ) : roundTo n 0 = 0 := by
  simpa using roundTo_int n 0

/-! ## DriftScorer (simple_pead) -/

theorem clv_term_cases (clv : Option ℚ) :
    ∃ a : ℤ, clv_term clv = (a : ℚ) / 2 ∧ -1 ≤ a ∧ a ≤ 2 := by
  cases clv with
  | none => exact ⟨0, by norm_num [clv_term]⟩
  | some c =>
    by_cases h : 0 ≤ c
    · exact ⟨2, by norm_num [clv_term, h]⟩
    · exact ⟨-1, by norm_num [clv_term, h]⟩

theorem gap_term_cases (gap : Option ℚ) :
    ∃ a : ℤ, gap_term gap = (a : ℚ) / 2 ∧ -1 ≤ a ∧ a ≤ 2 := by
  cases gap with
  | none => exact ⟨0, by norm_num [gap_term]⟩
  | some g =>
    by_cases h : g ≤ 33
    · exact ⟨2, by norm_num [gap_term, h]⟩
    · exact ⟨-1, by norm_num [gap_term, h]⟩

theorem ivcrush_term_cases (ivc : Option ℚ) :
    ∃ a : ℤ, ivcrush_term ivc = (a : ℚ) / 2 ∧ -1 ≤ a ∧ a ≤ 2 := by
  cases ivc with
  | none => exact ⟨0, by norm_num [ivcrush_term]⟩
  | some x =>
    by_cases h1 : -40 ≤ x ∧ x ≤ -5
    · exact ⟨2, by norm_num [ivcrush_term, h1]⟩
    · by_cases h2 : x < -50
      · exact ⟨-1, by norm_num [ivcrush_term, h1, h2]⟩
      · exact ⟨0, by norm_num [ivcrush_term, h1, h2]⟩

theorem pead_score_half_int (clv gap ivc : Option ℚ) :
    ∃ n : ℤ, pead_score clv gap ivc = (n : ℚ) / 2 ∧ -3 ≤ n ∧ n ≤ 6 := by
  obtain ⟨a, ha, ha1, ha2⟩ := clv_term_cases clv
  obtain ⟨b, hb, hb1, hb2⟩ := gap_term_cases gap
  obtain ⟨c, hc, hc1, hc2⟩ := ivcrush_term_cases ivc
  refine ⟨a + b + c, ?_, by omega, by omega⟩
  rw [pead_score, ha, hb, hc]
  push_cast
  ring

/-- C9: for a present ivCrushPct value x the scorer adds exactly +1.0 when
-40 <= x <= -5 (boundaries inclusive), exactly -0.5 when x < -50, and 0
otherwise; in particular x = -40 and x = -5 each contribute +1.0, x = -4.9
contributes 0, and x = -50.1 contributes -0.5. -/
theorem pead_score_ivcrush_band (clv gap : Option ℚ) (x : ℚ) :
    (-40 ≤ x → x ≤ -5 → pead_score clv gap (some x) = pead_score clv gap none + 1)
    ∧ (x < -50 → pead_score clv gap (some x) = pead_score clv gap none - 0.5)
    ∧ ((-5 < x ∨ (-50 ≤ x ∧ x < -40)) →
        pead_score clv gap (some x) = pead_score clv gap none)
    ∧ pead_score none none (some (-40)) = 1
    ∧ pead_score none none (some (-5)) = 1
    ∧ pead_score none none (some (-4.9)) = 0
    ∧ pead_score none none (some (-50.1)) = -0.5 := by
  refine ⟨?_, ?_, ?_, ?_, ?_, ?_, ?_⟩
  · intro h1 h2
    simp only [pead_score, ivcrush_term, if_pos (And.intro h1 h2)]
    ring
  · intro h
    have hne : ¬(-40 ≤ x ∧ x ≤ -5) := by rintro ⟨h1, -⟩; linarith
    simp only [pead_score, ivcrush_term, if_neg hne, if_pos h]
    ring
  · rintro (h | ⟨h1, h2⟩)
    · have hne : ¬(-40 ≤ x ∧ x ≤ -5) := by rintro ⟨-, h2⟩; linarith
      have hne2 : ¬(x < -50) := by linarith
      simp only [pead_score, ivcrush_term, if_neg hne, if_neg hne2]
    · have hne : ¬(-40 ≤ x ∧ x ≤ -5) := by rintro ⟨h3, -⟩; linarith
      have hne2 : ¬(x < -50) := by linarith
      simp only [pead_score, ivcrush_term, if_neg hne, if_neg hne2]
  · norm_num [pead_score, ivcrush_term, clv_term, gap_term]
  · norm_num [pead_score, ivcrush_term, clv_term, gap_term]
  · norm_num [pead_score, ivcrush_term, clv_term, gap_term]
  · norm_num [pead_score, ivcrush_term, clv_term, gap_term]

theorem pead_score_ivcrush_band_witness :
    pead_score none none (some (-20)) = pead_score none none none + 1 :=
  (pead_score_ivcrush_band none none (-20)).1 (by norm_num) (by norm_num)

/-- C10: the additive score always lies in [-1.5, 3], peadPct is exactly
2*score (so in [-3, 6]: neither the clamp to [-8, 12] nor the rounding
alters it), rangePct is exactly the integer pair (peadPct - 3, peadPct + 3),
and confidence is exactly 0.35 + 0.1*score (so in [0.2, 0.65]: neither the
clamp to [0.1, 0.8] nor the rounding alters it). -/
theorem simple_pead_bounds (clv gap ivc : Option ℚ) :
    (-1.5 ≤ pead_score clv gap ivc ∧ pead_score clv gap ivc ≤ 3)
    ∧ (simple_pead clv gap ivc).1 = 2 * pead_score clv gap ivc
    ∧ (-3 ≤ (simple_pead clv gap ivc).1 ∧ (simple_pead clv gap ivc).1 ≤ 6)
    ∧ (((simple_pead clv gap ivc).2.1.1 : ℚ) = (simple_pead clv gap ivc).1 - 3
        ∧ ((simple_pead clv gap ivc).2.1.2 : ℚ) = (simple_pead clv gap ivc).1 + 3)
    ∧ (simple_pead clv gap ivc).2.2 = 0.35 + 0.1 * pead_score clv gap ivc
    ∧ (0.2 ≤ (simple_pead clv gap ivc).2.2 ∧ (simple_pead clv gap ivc).2.2 ≤ 0.65) := by
  obtain ⟨n, hn, hlo, hhi⟩ := pead_score_half_int clv gap ivc
  have hn' : (-3 : ℚ) ≤ (n : ℚ) ∧ (n : ℚ) ≤ 6 :=
    ⟨by exact_mod_cast hlo, by exact_mod_cast hhi⟩
  have h2s : 2 * pead_score clv gap ivc = (n : ℚ) := by rw [hn]; ring
  have hmin : min (12 : ℚ) (2 * pead_score clv gap ivc) = (n : ℚ) := by
    rw [h2s]; exact min_eq_right (by linarith [hn'.2])
  have hmax : max (-8 : ℚ) ((n : ℚ)) = (n : ℚ) := max_eq_right (by linarith [hn'.1])
  have hpead : (simple_pead clv gap ivc).1 = (n : ℚ) := by
    simp only [simple_pead, hmin, hmax]
    exact roundTo_int 2 n
  have hconf : (simple_pead clv gap ivc).2.2 = ((35 + 5 * n : ℤ) : ℚ) / 100 := by
    simp only [simple_pead]
    have harg : (0.35 : ℚ) + 0.1 * pead_score clv gap ivc = ((35 + 5 * n : ℤ) : ℚ) / 100 := by
      rw [hn]; push_cast; ring
    rw [harg]
    have hr : roundTo 2 (((35 + 5 * n : ℤ) : ℚ) / 100) = ((35 + 5 * n : ℤ) : ℚ) / 100 := by
      have := roundTo_intCast 2 (35 + 5 * n)
      norm_num at this ⊢
      exact this
    rw [hr]
    have hub : ((35 + 5 * n : ℤ) : ℚ) / 100 ≤ 0.8 := by
      push_cast; rw [div_le_iff₀ (by norm_num)]; nlinarith [hn'.2]
    have hlb : (0.1 : ℚ) ≤ ((35 + 5 * n : ℤ) : ℚ) / 100 := by
      push_cast; rw [le_div_iff₀ (by norm_num)]; nlinarith [hn'.1]
    rw [min_eq_right hub, max_eq_right hlb]
  refine ⟨⟨by rw [hn]; linarith [hn'.1], by rw [hn]; linarith [hn'.2]⟩, ?_, ?_, ?_, ?_, ?_⟩
  · rw [hpead, h2s]
  · exact ⟨by rw [hpead]; linarith [hn'.1], by rw [hpead]; linarith [hn'.2]⟩
  · constructor
    · simp only [simple_pead, hmin, hmax]
      rw [roundTo_int 2 n]
      rw [show (n : ℚ) - 3 = ((n - 3 : ℤ) : ℚ) by push_cast; ring, pyInt_intCast]
    · simp only [simple_pead, hmin, hmax]
      rw [roundTo_int 2 n]
      rw [show (n : ℚ) + 3 = ((n + 3 : ℤ) : ℚ) by push_cast; ring, pyInt_intCast]
  · rw [hconf, hn]; push_cast; ring
  · constructor
    · rw [hconf]; push_cast; rw [le_div_iff₀ (by norm_num)]; nlinarith [hn'.1]
    · rw [hconf]; push_cast; rw [div_le_iff₀ (by norm_num)]; nlinarith [hn'.2]

/-! ## Gap-fill / CLV helper (gapfill_and_clv) -/

/-- C7 counterexample: with prevClose = 3 and the all-positive bar
(open 6, high 6, low 6.1, close 6) the returned gapFillPct is -3.33: it is
negative (outside [0, 150]) and differs from the un-rounded
min(150, 100 * retracement / gap) = -10/3 the claim states. -/
theorem gapFillPct_range_cex :
    ((0:ℚ) < 3 ∧ (0:ℚ) < 6 ∧ (0:ℚ) < 61/10) ∧
    (gapfill_and_clv 3 ⟨6, 6, 61/10, 6⟩).1 = -333/100
    ∧ ¬(0 ≤ (gapfill_and_clv 3 ⟨6, 6, 61/10, 6⟩).1)
    ∧ (gapfill_and_clv 3 ⟨6, 6, 61/10, 6⟩).1
        ≠ min 150 (100 * (((6:ℚ) - 61/10) / |(6:ℚ) - 3|)) := by
  norm_num [gapfill_and_clv, roundTo, round_eq]

/-- C7 amended: for every prevClose and every bar whose open lies between its
low and its high, the returned gapFillPct lies in [0, 150], and it equals
min(150, 100 * retracement / gap) rounded to 2 decimal places when
gap = abs(open - prevClose) > 1e-9, else 0. -/
theorem gapFillPct_props (prev : ℚ) (bar : OHLC)
    (hlo : bar.l ≤ bar.o) (hoh : bar.o ≤ bar.h) :
    (0 ≤ (gapfill_and_clv prev bar).1 ∧ (gapfill_and_clv prev bar).1 ≤ 150)
    ∧ (gapfill_and_clv prev bar).1
        = roundTo 2 (if 1e-9 < |bar.o - prev|
            then min 150 (100 * ((if prev ≤ bar.o then bar.o - bar.l else bar.h - bar.o)
              / |bar.o - prev|))
            else 0) := by
  have hgap : (if prev ≤ bar.o then bar.o - prev else prev - bar.o) = |bar.o - prev| := by
    by_cases hc : prev ≤ bar.o
    · rw [if_pos hc, abs_of_nonneg (by linarith)]
    · rw [if_neg hc, abs_of_neg (by linarith)]; ring
  have hretr : 0 ≤ (if prev ≤ bar.o then bar.o - bar.l else bar.h - bar.o) := by
    by_cases hc : prev ≤ bar.o
    · rw [if_pos hc]; linarith
    · rw [if_neg hc]; linarith
  have hval : (0 : ℚ) ≤ (if 1e-9 < |bar.o - prev|
        then min 150 (100 * ((if prev ≤ bar.o then bar.o - bar.l else bar.h - bar.o)
          / |bar.o - prev|))
        else 0)
      ∧ (if 1e-9 < |bar.o - prev|
        then min 150 (100 * ((if prev ≤ bar.o then bar.o - bar.l else bar.h - bar.o)
          / |bar.o - prev|))
        else 0) ≤ 150 := by
    by_cases hc : (1e-9 : ℚ) < |bar.o - prev|
    · simp only [if_pos hc]
      constructor
      · apply le_min (by norm_num)
        have habs : (0:ℚ) < |bar.o - prev| := lt_trans (by norm_num) hc
        positivity
      · exact min_le_left _ _
    · simp only [if_neg hc]; norm_num
  have heq : (gapfill_and_clv prev bar).1
      = roundTo 2 (if 1e-9 < |bar.o - prev|
          then min 150 (100 * ((if prev ≤ bar.o then bar.o - bar.l else bar.h - bar.o)
            / |bar.o - prev|))
          else 0) := by
    simp only [gapfill_and_clv, hgap]
  refine ⟨⟨?_, ?_⟩, heq⟩
  · rw [heq]
    calc (0:ℚ) = roundTo 2 0 := (roundTo_zero 2).symm
    _ ≤ _ := roundTo_mono 2 hval.1
  · rw [heq]
    calc _ ≤ roundTo 2 150 := roundTo_mono 2 hval.2
    _ = 150 := by exact_mod_cast roundTo_int 2 150

theorem gapFillPct_props_witness :
    (0 ≤ (gapfill_and_clv 3 ⟨5, 6, 4, 5⟩).1 ∧ (gapfill_and_clv 3 ⟨5, 6, 4, 5⟩).1 ≤ 150)
    ∧ (gapfill_and_clv 3 ⟨5, 6, 4, 5⟩).1
        = roundTo 2 (if 1e-9 < |(5:ℚ) - 3|
            then min 150 (100 * ((if (3:ℚ) ≤ 5 then (5:ℚ) - 4 else (6:ℚ) - 5) / |(5:ℚ) - 3|))
            else 0) :=
  gapFillPct_props 3 ⟨5, 6, 4, 5⟩ (by norm_num) (by norm_num)

/-- C8: for every bar with low <= close <= high and high > low, the returned
clv equals (2*close - high - low)/(high - low) rounded to 3 decimal places
and lies in [-1, 1]; whenever high = low the returned clv is exactly 0. -/
theorem clv_props (prev : ℚ) (bar : OHLC) :
    (bar.l ≤ bar.c → bar.c ≤ bar.h → bar.l < bar.h →
      (gapfill_and_clv prev bar).2
          = roundTo 3 ((2 * bar.c - bar.h - bar.l) / (bar.h - bar.l))
        ∧ -1 ≤ (gapfill_and_clv prev bar).2 ∧ (gapfill_and_clv prev bar).2 ≤ 1)
    ∧ (bar.h = bar.l → (gapfill_and_clv prev bar).2 = 0) := by
  constructor
  · intro hlc hch hlh
    have hpos : (0:ℚ) < bar.h - bar.l := sub_pos.mpr hlh
    have heq : (gapfill_and_clv prev bar).2
        = roundTo 3 ((2 * bar.c - bar.h - bar.l) / (bar.h - bar.l)) := by
      simp only [gapfill_and_clv, if_pos hlh]
    have hub : (2 * bar.c - bar.h - bar.l) / (bar.h - bar.l) ≤ 1 := by
      rw [div_le_one hpos]; linarith
    have hlb : (-1 : ℚ) ≤ (2 * bar.c - bar.h - bar.l) / (bar.h - bar.l) := by
      rw [le_div_iff₀ hpos]; linarith
    refine ⟨heq, ?_, ?_⟩
    · rw [heq]
      calc (-1 : ℚ) = roundTo 3 ((-1 : ℤ) : ℚ) := by rw [roundTo_int]; norm_num
      _ ≤ _ := roundTo_mono 3 (by exact_mod_cast hlb)
    · rw [heq]
      calc _ ≤ roundTo 3 ((1 : ℤ) : ℚ) := roundTo_mono 3 (by exact_mod_cast hub)
      _ = 1 := by rw [roundTo_int]; norm_num
  · intro hhl
    have hnl : ¬(bar.l < bar.h) := by rw [hhl]; exact lt_irrefl _
    simp only [gapfill_and_clv, if_neg hnl]
    exact roundTo_zero 3

theorem clv_props_witness :
    ((gapfill_and_clv 3 ⟨5, 6, 4, 5⟩).2
        = roundTo 3 ((2 * (5:ℚ) - 6 - 4) / ((6:ℚ) - 4))
      ∧ -1 ≤ (gapfill_and_clv 3 ⟨5, 6, 4, 5⟩).2 ∧ (gapfill_and_clv 3 ⟨5, 6, 4, 5⟩).2 ≤ 1) :=
  (clv_props 3 ⟨5, 6, 4, 5⟩).1 (by norm_num) (by norm_num) (by norm_num)

/-! ## Expiry bracketing (pick_expiries) -/

theorem toE_dayOf (t e : ℤ) : t + pyInt (dayOf t e * 86400) = e := by
  have h : dayOf t e * 86400 = ((e - t : ℤ) : ℚ) := by
    unfold dayOf
    rw [div_mul_cancel₀ _ (by norm_num : (86400:ℚ) ≠ 0)]
    push_cast
    ring
  rw [h, pyInt_intCast]
  omega

theorem dayOf_le_iff (t e : ℤ) : (dayOf t e ≤ 30) ↔ (e ≤ t + 2592000) := by
  unfold dayOf
  rw [div_le_iff₀ (by norm_num : (0:ℚ) < 86400)]
  constructor
  · intro h
    have : (e : ℚ) ≤ ((t + 2592000 : ℤ) : ℚ) := by push_cast; linarith
    exact_mod_cast this
  · intro h
    have : (e : ℚ) ≤ ((t + 2592000 : ℤ) : ℚ) := by exact_mod_cast h
    push_cast at this
    linarith

theorem le_dayOf_iff (t e : ℤ) : (30 ≤ dayOf t e) ↔ (t + 2592000 ≤ e) := by
  unfold dayOf
  rw [le_div_iff₀ (by norm_num : (0:ℚ) < 86400)]
  constructor
  · intro h
    have : ((t + 2592000 : ℤ) : ℚ) ≤ (e : ℚ) := by push_cast; linarith
    exact_mod_cast this
  · intro h
    have : ((t + 2592000 : ℤ) : ℚ) ≤ (e : ℚ) := by exact_mod_cast h
    push_cast at this
    linarith

/-- pick_expiries computed purely on integer timestamp lists: the day
conversion and the int() round trip cancel. -/
theorem pick_expiries_eq_lists (exp : List ℤ) (t : ℤ) :
    pick_expiries exp t =
      (if (exp.filter (fun e => t + 86400 < e)).isEmpty then (none, none) else
        (((exp.filter (fun e => t + 86400 < e)).filter
            (fun e => e ≤ t + 2592000)).getLast?.orElse
          (fun _ => ((exp.filter (fun e => t + 86400 < e)).filter
            (fun e => t + 2592000 ≤ e)).head?),
         ((exp.filter (fun e => t + 86400 < e)).filter
            (fun e => t + 2592000 ≤ e)).head?.orElse
          (fun _ => ((exp.filter (fun e => t + 86400 < e)).filter
            (fun e => e ≤ t + 2592000)).getLast?))) := by
  unfold pick_expiries
  have hBelow : ((exp.filter (fun e => t + 86400 < e)).map (dayOf t)).filter
        (fun d => d ≤ 30)
      = ((exp.filter (fun e => t + 86400 < e)).filter
          (fun e => e ≤ t + 2592000)).map (dayOf t) := by
    rw [List.filter_map]
    congr 1
    apply List.filter_congr
    intro x _
    simp only [Function.comp_apply, decide_eq_decide]
    exact dayOf_le_iff t x
  have hAbove : ((exp.filter (fun e => t + 86400 < e)).map (dayOf t)).filter
        (fun d => 30 ≤ d)
      = ((exp.filter (fun e => t + 86400 < e)).filter
          (fun e => t + 2592000 ≤ e)).map (dayOf t) := by
    rw [List.filter_map]
    congr 1
    apply List.filter_congr
    intro x _
    simp only [Function.comp_apply, decide_eq_decide]
    exact le_dayOf_iff t x
  have hEmpty : ((exp.filter (fun e => t + 86400 < e)).map (dayOf t)).isEmpty
      = (exp.filter (fun e => t + 86400 < e)).isEmpty := by
    cases exp.filter (fun e => t + 86400 < e) <;> simp
  simp only [hBelow, hAbove, hEmpty, List.getLast?_map, List.head?_map]
  rcases h0 : (exp.filter (fun e => t + 86400 < e)).isEmpty with _ | _
  · simp only [Bool.false_eq_true, if_false]
    rcases hB : ((exp.filter (fun e => t + 86400 < e)).filter
        (fun e => e ≤ t + 2592000)).getLast? with _ | b <;>
      rcases hA : ((exp.filter (fun e => t + 86400 < e)).filter
        (fun e => t + 2592000 ≤ e)).head? with _ | a <;>
      simp [Option.orElse, toE_dayOf]
  · simp

theorem sorted_le_getLast? {l : List ℤ} (hs : l.Pairwise (· ≤ ·)) {y : ℤ}
    (hy : l.getLast? = some y) : ∀ x ∈ l, x ≤ y := by
  induction l with
  | nil => simp at hy
  | cons a l ih =>
    cases l with
    | nil =>
      simp only [List.getLast?_singleton, Option.some.injEq] at hy
      intro x hx
      simp only [List.mem_singleton] at hx
      omega
    | cons b l' =>
      rw [List.getLast?_cons_cons] at hy
      have hmem : y ∈ b :: l' := List.mem_of_mem_getLast? (by rw [hy]; rfl)
      intro x hx
      rcases List.mem_cons.mp hx with rfl | hx'
      · exact (List.rel_of_pairwise_cons hs) hmem
      · exact ih hs.of_cons hy x hx'

theorem sorted_head?_le {l : List ℤ} (hs : l.Pairwise (· ≤ ·)) {y : ℤ}
    (hy : l.head? = some y) : ∀ x ∈ l, y ≤ x := by
  cases l with
  | nil => simp at hy
  | cons a l =>
    simp only [List.head?_cons, Option.some.injEq] at hy
    subst hy
    intro x hx
    rcases List.mem_cons.mp hx with rfl | hx'
    · omega
    · exact (List.rel_of_pairwise_cons hs) hx'

/-- C1 amended: when the expiry list is sorted in ascending time order (as the
quote provider delivers it), the selected e1 is the largest-time member of the
set of future (strictly more than 1 day out) expiries at most 30 days out if
that set is non-empty, else the smallest-time member of the at-least-30-days
set; e2 is the smallest-time member of the at-least-30-days set if non-empty,
else the largest-time member of the at-most-30-days set; both are members of
the expiry list, and e1 <= 30-day target <= e2 when both sets are non-empty.
(30 days = 2592000 seconds, 1 day = 86400 seconds.) -/
theorem pick_expiries_bracket (exp : List ℤ) (t : ℤ)
    (hsorted : exp.Pairwise (· ≤ ·))
    (hfut : ∃ e ∈ exp, t + 86400 < e) :
    ∃ e1 e2, pick_expiries exp t = (some e1, some e2)
      ∧ e1 ∈ exp ∧ e2 ∈ exp
      ∧ ((∃ x ∈ exp, t + 86400 < x ∧ x ≤ t + 2592000) →
          (t + 86400 < e1 ∧ e1 ≤ t + 2592000)
          ∧ ∀ x ∈ exp, t + 86400 < x → x ≤ t + 2592000 → x ≤ e1)
      ∧ ((¬∃ x ∈ exp, t + 86400 < x ∧ x ≤ t + 2592000) →
          (t + 86400 < e1 ∧ t + 2592000 ≤ e1)
          ∧ ∀ x ∈ exp, t + 86400 < x → t + 2592000 ≤ x → e1 ≤ x)
      ∧ ((∃ x ∈ exp, t + 86400 < x ∧ t + 2592000 ≤ x) →
          (t + 86400 < e2 ∧ t + 2592000 ≤ e2)
          ∧ ∀ x ∈ exp, t + 86400 < x → t + 2592000 ≤ x → e2 ≤ x)
      ∧ ((¬∃ x ∈ exp, t + 86400 < x ∧ t + 2592000 ≤ x) →
          (t + 86400 < e2 ∧ e2 ≤ t + 2592000)
          ∧ ∀ x ∈ exp, t + 86400 < x → x ≤ t + 2592000 → x ≤ e2)
      ∧ ((∃ x ∈ exp, t + 86400 < x ∧ x ≤ t + 2592000) →
         (∃ x ∈ exp, t + 86400 < x ∧ t + 2592000 ≤ x) →
          e1 ≤ t + 2592000 ∧ t + 2592000 ≤ e2) := by
  rw [pick_expiries_eq_lists]
  set fut := exp.filter (fun e => t + 86400 < e) with hfutdef
  set B := fut.filter (fun e => e ≤ t + 2592000) with hBdef
  set A := fut.filter (fun e => t + 2592000 ≤ e) with hAdef
  have hmemfut : ∀ x, x ∈ fut ↔ x ∈ exp ∧ t + 86400 < x := by
    intro x
    simp [hfutdef, List.mem_filter]
  have hmemB : ∀ x, x ∈ B ↔ x ∈ exp ∧ t + 86400 < x ∧ x ≤ t + 2592000 := by
    intro x
    simp [hBdef, hmemfut x, List.mem_filter, and_assoc]
  have hmemA : ∀ x, x ∈ A ↔ x ∈ exp ∧ t + 86400 < x ∧ t + 2592000 ≤ x := by
    intro x
    simp [hAdef, hmemfut x, List.mem_filter, and_assoc]
  have hfutne : fut ≠ [] := by
    obtain ⟨e, he, hgt⟩ := hfut
    intro hnil
    have hme : e ∈ fut := (hmemfut e).mpr ⟨he, hgt⟩
    rw [hnil] at hme
    simp at hme
  have hisEmpty : fut.isEmpty = false := List.isEmpty_eq_false.mpr hfutne
  rw [hisEmpty]
  simp only [Bool.false_eq_true, if_false]
  have hsB : B.Pairwise (· ≤ (·:ℤ)) := List.Pairwise.filter _ (List.Pairwise.filter _ hsorted)
  have hsA : A.Pairwise (· ≤ (·:ℤ)) := List.Pairwise.filter _ (List.Pairwise.filter _ hsorted)
  rcases hB : B.getLast? with _ | b
  · -- B is empty
    have hBnil : B = [] := List.getLast?_eq_none_iff.mp hB
    have hnoB : ¬∃ x ∈ exp, t + 86400 < x ∧ x ≤ t + 2592000 := by
      rintro ⟨x, hx, h1, h2⟩
      have : x ∈ B := (hmemB x).mpr ⟨hx, h1, h2⟩
      rw [hBnil] at this
      simp at this
    rcases hA : A.head? with _ | a
    · -- A empty too: contradiction with fut nonempty
      exfalso
      have hAnil : A = [] := List.head?_eq_none_iff.mp hA
      obtain ⟨y, hy⟩ := List.exists_mem_of_ne_nil fut hfutne
      have hy' := (hmemfut y).mp hy
      rcases le_or_lt y (t + 2592000) with hc | hc
      · have : y ∈ B := (hmemB y).mpr ⟨hy'.1, hy'.2, hc⟩
        rw [hBnil] at this
        simp at this
      · have : y ∈ A := (hmemA y).mpr ⟨hy'.1, hy'.2, le_of_lt hc⟩
        rw [hAnil] at this
        simp at this
    · -- e1 = e2 = a, the head (minimum) of A
      have haA := (hmemA a).mp (List.mem_of_mem_head? (by rw [hA]; rfl))
      refine ⟨a, a, by simp [Option.orElse], haA.1, haA.1, ?_, ?_, ?_, ?_, ?_⟩
      · intro h; exact absurd h hnoB
      · intro _
        exact ⟨⟨haA.2.1, haA.2.2⟩, fun x hx h1 h2 =>
          sorted_head?_le hsA hA x ((hmemA x).mpr ⟨hx, h1, h2⟩)⟩
      · intro _
        exact ⟨⟨haA.2.1, haA.2.2⟩, fun x hx h1 h2 =>
          sorted_head?_le hsA hA x ((hmemA x).mpr ⟨hx, h1, h2⟩)⟩
      · rintro hno
        exact absurd ⟨a, haA.1, haA.2.1, haA.2.2⟩ hno
      · intro h; exact absurd h hnoB
  · -- B nonempty: e1 = b, its last (maximum) element
    have hbB := (hmemB b).mp (List.mem_of_mem_getLast? (by rw [hB]; rfl))
    have hmaxB : ∀ x ∈ exp, t + 86400 < x → x ≤ t + 2592000 → x ≤ b := fun x hx h1 h2 =>
      sorted_le_getLast? hsB hB x ((hmemB x).mpr ⟨hx, h1, h2⟩)
    rcases hA : A.head? with _ | a
    · -- A empty: e2 = b as well
      have hAnil : A = [] := List.head?_eq_none_iff.mp hA
      have hnoA : ¬∃ x ∈ exp, t + 86400 < x ∧ t + 2592000 ≤ x := by
        rintro ⟨x, hx, h1, h2⟩
        have : x ∈ A := (hmemA x).mpr ⟨hx, h1, h2⟩
        rw [hAnil] at this
        simp at this
      refine ⟨b, b, by simp [Option.orElse], hbB.1, hbB.1, ?_, ?_, ?_, ?_, ?_⟩
      · intro _
        exact ⟨⟨hbB.2.1, hbB.2.2⟩, hmaxB⟩
      · rintro hno
        exact absurd ⟨b, hbB.1, hbB.2.1, hbB.2.2⟩ hno
      · intro h; exact absurd h hnoA
      · intro _
        exact ⟨⟨hbB.2.1, hbB.2.2⟩, hmaxB⟩
      · intro _ h; exact absurd h hnoA
    · -- both sides populated: e1 = b, e2 = a
      have haA := (hmemA a).mp (List.mem_of_mem_head? (by rw [hA]; rfl))
      have hminA : ∀ x ∈ exp, t + 86400 < x → t + 2592000 ≤ x → a ≤ x := fun x hx h1 h2 =>
        sorted_head?_le hsA hA x ((hmemA x).mpr ⟨hx, h1, h2⟩)
      refine ⟨b, a, by simp [Option.orElse], hbB.1, haA.1, ?_, ?_, ?_, ?_, ?_⟩
      · intro _
        exact ⟨⟨hbB.2.1, hbB.2.2⟩, hmaxB⟩
      · rintro hno
        exact absurd ⟨b, hbB.1, hbB.2.1, hbB.2.2⟩ hno
      · intro _
        exact ⟨⟨haA.2.1, haA.2.2⟩, hminA⟩
      · rintro hno
        exact absurd ⟨a, haA.1, haA.2.1, haA.2.2⟩ hno
      · intro _ _
        exact ⟨hbB.2.2, haA.2.2⟩

/-- C1 counterexample: with reference time 0 and the (unsorted) expiry list
[1728000, 864000] (20 days and 10 days out, both in the at-most-30-days set),
the code selects e1 = e2 = 864000, yet 1728000 is a member of the future
at-most-30-days set and is larger: e1 is not the largest-time member, and e2
is not the largest-time member of the below set that the claim requires when
the at-least-30-days set is empty. -/
theorem pick_expiries_largest_cex :
    pick_expiries [1728000, 864000] 0 = (some 864000, some 864000)
    ∧ ((1728000:ℤ) ∈ [(1728000:ℤ), 864000]
        ∧ (0:ℤ) + 86400 < 1728000 ∧ (1728000:ℤ) ≤ 0 + 2592000)
    ∧ ¬((1728000:ℤ) ≤ 864000) := by
  refine ⟨?_, ⟨by simp, by norm_num, by norm_num⟩, by norm_num⟩
  norm_num [pick_expiries, dayOf, pyInt, List.filter, Option.orElse]

theorem pick_expiries_bracket_witness :
    ∃ e1 e2, pick_expiries [864000, 3456000] 0 = (some e1, some e2)
      ∧ e1 ∈ [(864000:ℤ), 3456000] ∧ e2 ∈ [(864000:ℤ), 3456000]
      ∧ ((∃ x ∈ [(864000:ℤ), 3456000], 0 + 86400 < x ∧ x ≤ 0 + 2592000) →
          ((0:ℤ) + 86400 < e1 ∧ e1 ≤ 0 + 2592000)
          ∧ ∀ x ∈ [(864000:ℤ), 3456000], 0 + 86400 < x → x ≤ 0 + 2592000 → x ≤ e1)
      ∧ ((¬∃ x ∈ [(864000:ℤ), 3456000], 0 + 86400 < x ∧ x ≤ 0 + 2592000) →
          ((0:ℤ) + 86400 < e1 ∧ 0 + 2592000 ≤ e1)
          ∧ ∀ x ∈ [(864000:ℤ), 3456000], 0 + 86400 < x → 0 + 2592000 ≤ x → e1 ≤ x)
      ∧ ((∃ x ∈ [(864000:ℤ), 3456000], 0 + 86400 < x ∧ 0 + 2592000 ≤ x) →
          ((0:ℤ) + 86400 < e2 ∧ 0 + 2592000 ≤ e2)
          ∧ ∀ x ∈ [(864000:ℤ), 3456000], 0 + 86400 < x → 0 + 2592000 ≤ x → e2 ≤ x)
      ∧ ((¬∃ x ∈ [(864000:ℤ), 3456000], 0 + 86400 < x ∧ 0 + 2592000 ≤ x) →
          ((0:ℤ) + 86400 < e2 ∧ e2 ≤ 0 + 2592000)
          ∧ ∀ x ∈ [(864000:ℤ), 3456000], 0 + 86400 < x → x ≤ 0 + 2592000 → x ≤ e2)
      ∧ ((∃ x ∈ [(864000:ℤ), 3456000], 0 + 86400 < x ∧ x ≤ 0 + 2592000) →
         (∃ x ∈ [(864000:ℤ), 3456000], 0 + 86400 < x ∧ 0 + 2592000 ≤ x) →
          e1 ≤ 0 + 2592000 ∧ 0 + 2592000 ≤ e2) :=
  pick_expiries_bracket [864000, 3456000] 0 (by decide)
    ⟨864000, by simp, by norm_num⟩

/-! ## IV30 estimator (iv30_from_yahoo) -/

/-- C2: whenever the estimator reaches its interpolation branch (spot present,
bracketing expiries e1, e2 selected, both fetches succeed and both expiries
yield a non-absent IV), the returned value is
sqrt(max(1e-10, varT / Tt)) where T_i = max(1e-6, (e_i - t_now)/31557600)
(the 365.25-day-year fraction floored at epsilon), Tt = 30/365.25,
var_i = iv_i^2 * T_i, alpha = (Tt - T1)/(T2 - T1) unless |T2 - T1| <= 1e-9
in which case alpha = 0.5, and varT = var1 + (var2 - var1) * alpha — this is
interp_iv30 applied to the two IVs and year fractions. -/
theorem iv30_interp_formula (chain : ChainJson)
    (fetch : String → ℤ → Except Fault ExpiryOptions) (t_now : ℤ)
    (res : ChainResult) (quote : QuoteInfo) (spot : ℚ) (e1 e2 : ℤ) (sym : String)
    (b1 b2 : ExpiryOptions) (iv1 iv2 : ℚ)
    (h1 : chain.result = some res) (h2 : res.quote = some quote)
    (h3 : quote.regularMarketPrice = some spot)
    (h4 : pick_expiries (res.expirationDates.getD []) t_now = (some e1, some e2))
    (h5 : ¬(e1 = 0 ∨ e2 = 0)) (h6 : quote.symbol = some sym)
    (h7 : fetch sym e1 = .ok b1) (h8 : fetch sym e2 = .ok b2)
    (h9 : expiry_iv b1 spot = some iv1) (h10 : expiry_iv b2 spot = some iv2) :
    iv30val chain fetch t_now
      = some (interp_iv30 iv1 (max 1e-6 (((e1 : ℚ) - (t_now : ℚ)) / 31557600))
                          iv2 (max 1e-6 (((e2 : ℚ) - (t_now : ℚ)) / 31557600))) := by
  simp only [iv30val, iv30, iv30_core, h1, h2, h3, h4, h6, h7, h8, h9, h10,
    if_neg h5]
  rfl

theorem iv30_interp_formula_witness :
    iv30val ⟨some ⟨some ⟨some 100, some "T"⟩, some [864000, 3456000]⟩⟩
        (fun _ e => if e = 864000 then .ok ⟨[⟨some 100, some (1/5)⟩], []⟩
                    else .ok ⟨[⟨some 100, some (3/10)⟩], []⟩) 0
      = some (interp_iv30 (1/5) (max 1e-6 (((864000 : ℚ) - (0 : ℚ)) / 31557600))
                          (3/10) (max 1e-6 (((3456000 : ℚ) - (0 : ℚ)) / 31557600))) :=
  iv30_interp_formula _ _ 0 _ _ 100 864000 3456000 "T"
    ⟨[⟨some 100, some (1/5)⟩], []⟩ ⟨[⟨some 100, some (3/10)⟩], []⟩ (1/5) (3/10)
    rfl rfl rfl
    (by norm_num [pick_expiries, dayOf, pyInt, List.filter, Option.orElse])
    (by norm_num) rfl
    (by norm_num) (by norm_num)
    (by norm_num [expiry_iv, nearest_atm_iv, atmStep, combineIV])
    (by norm_num [expiry_iv, nearest_atm_iv, atmStep, combineIV])

/-- C3: whenever the estimator reaches the per-expiry IV computation and
exactly one of the two selected expiries yields a non-absent IV, the
estimator returns exactly that IV value, unmodified (as a direct value: no
interpolation, no epsilon floor, no rounding); when both are absent it
returns the unavailable result none. -/
theorem iv30_single_sided (chain : ChainJson)
    (fetch : String → ℤ → Except Fault ExpiryOptions) (t_now : ℤ)
    (res : ChainResult) (quote : QuoteInfo) (spot : ℚ) (e1 e2 : ℤ) (sym : String)
    (b1 b2 : ExpiryOptions)
    (h1 : chain.result = some res) (h2 : res.quote = some quote)
    (h3 : quote.regularMarketPrice = some spot)
    (h4 : pick_expiries (res.expirationDates.getD []) t_now = (some e1, some e2))
    (h5 : ¬(e1 = 0 ∨ e2 = 0)) (h6 : quote.symbol = some sym)
    (h7 : fetch sym e1 = .ok b1) (h8 : fetch sym e2 = .ok b2) :
    (∀ v1, expiry_iv b1 spot = some v1 → expiry_iv b2 spot = none →
        iv30 chain fetch t_now = some (.direct v1)
        ∧ iv30val chain fetch t_now = some ((v1 : ℝ)))
    ∧ (∀ v2, expiry_iv b1 spot = none → expiry_iv b2 spot = some v2 →
        iv30 chain fetch t_now = some (.direct v2)
        ∧ iv30val chain fetch t_now = some ((v2 : ℝ)))
    ∧ (expiry_iv b1 spot = none → expiry_iv b2 spot = none →
        iv30 chain fetch t_now = none) := by
  refine ⟨?_, ?_, ?_⟩
  · intro v1 hv1 hv2
    constructor <;>
      · simp only [iv30val, iv30, iv30_core, h1, h2, h3, h4, h6, h7, h8, hv1, hv2,
          if_neg h5]
        try rfl
  · intro v2 hv1 hv2
    constructor <;>
      · simp only [iv30val, iv30, iv30_core, h1, h2, h3, h4, h6, h7, h8, hv1, hv2,
          if_neg h5]
        try rfl
  · intro hv1 hv2
    simp only [iv30, iv30_core, h1, h2, h3, h4, h6, h7, h8, hv1, hv2, if_neg h5]

theorem iv30_single_sided_witness :
    iv30 ⟨some ⟨some ⟨some 100, some "T"⟩, some [864000, 3456000]⟩⟩
        (fun _ e => if e = 864000 then .ok ⟨[⟨some 100, some (1/5)⟩], []⟩
                    else .ok ⟨[], []⟩) 0
      = some (.direct (1/5))
    ∧ iv30val ⟨some ⟨some ⟨some 100, some "T"⟩, some [864000, 3456000]⟩⟩
        (fun _ e => if e = 864000 then .ok ⟨[⟨some 100, some (1/5)⟩], []⟩
                    else .ok ⟨[], []⟩) 0
      = some (((1/5 : ℚ) : ℝ)) :=
  (iv30_single_sided _ _ 0 _ _ 100 864000 3456000 "T"
    ⟨[⟨some 100, some (1/5)⟩], []⟩ ⟨[], []⟩
    rfl rfl rfl
    (by norm_num [pick_expiries, dayOf, pyInt, List.filter, Option.orElse])
    (by norm_num) rfl
    (by norm_num) (by norm_num)).1 (1/5)
    (by norm_num [expiry_iv, nearest_atm_iv, atmStep, combineIV])
    (by norm_num [expiry_iv, nearest_atm_iv, atmStep, combineIV])

theorem atm_fold_inv (spot : ℚ) :
    ∀ (l : List OptionQuote) (st : Option ℚ × ℚ) (iv : ℚ),
      (l.foldl (atmStep spot) st).1 = some iv →
      st.1 = some iv ∨ ∃ q ∈ l, q.impliedVolatility = some iv ∧ iv ≠ 0 := by
  intro l
  induction l with
  | nil => exact fun st iv h => .inl h
  | cons a l ih =>
    intro st iv h
    rw [List.foldl_cons] at h
    rcases ih (atmStep spot st a) iv h with h' | ⟨q, hq, hiv⟩
    · rcases a with ⟨ks, ivs⟩
      rcases ks with _ | k
      · exact .inl (by simpa [atmStep] using h')
      · rcases ivs with _ | ivv
        · exact .inl (by simpa [atmStep] using h')
        · by_cases h0 : ivv = 0
          · exact .inl (by simpa [atmStep, h0] using h')
          · by_cases hd : |k - spot| < st.2
            · right
              refine ⟨⟨some k, some ivv⟩, List.mem_cons_self _ _, ?_, ?_⟩
              · simp only [atmStep, if_neg h0, if_pos hd] at h'
                simpa using h'
              · simp only [atmStep, if_neg h0, if_pos hd] at h'
                intro hiv0
                exact h0 (by simpa [hiv0] using h')
            · exact .inl (by simpa [atmStep, h0, hd] using h')
    · exact .inr ⟨q, List.mem_cons_of_mem _ hq, hiv⟩

/-- A non-absent nearest_atm_iv value comes from one of the rows and is
non-zero (the zero-IV and null-IV rows are skipped). -/
theorem nearest_atm_iv_mem {options : List OptionQuote} {spot iv : ℚ}
    (h : nearest_atm_iv options spot = some iv) :
    ∃ q ∈ options, q.impliedVolatility = some iv ∧ iv ≠ 0 := by
  rcases atm_fold_inv spot options (none, 1e18) iv h with h' | h'
  · simp at h'
  · exact h'

theorem combineIV_pos {c p : Option ℚ} {v : ℚ}
    (hc : ∀ x, c = some x → 0 < x) (hp : ∀ x, p = some x → 0 < x)
    (h : combineIV c p = some v) : 0 < v := by
  rcases p with _ | pv
  · exact hc v (by simpa [combineIV] using h)
  · rcases c with _ | cv
    · have hpe : pv = v := by simpa [combineIV] using h
      exact hpe ▸ hp pv rfl
    · by_cases h0 : cv = 0
      · have hpe : pv = v := by simpa [combineIV, h0] using h
        exact hpe ▸ hp pv rfl
      · have hpe : (cv + pv) / 2 = v := by simpa [combineIV, h0] using h
        have h1 := hc cv rfl
        have h2 := hp pv rfl
        rw [← hpe]
        positivity

theorem expiry_iv_pos {b : ExpiryOptions} {spot v : ℚ}
    (hq : ∀ q ∈ b.calls ++ b.puts, ∀ iv, q.impliedVolatility = some iv → 0 ≤ iv)
    (h : expiry_iv b spot = some v) : 0 < v := by
  unfold expiry_iv at h
  refine combineIV_pos ?_ ?_ h
  · intro x hx
    obtain ⟨q, hmem, hqiv, hne⟩ := nearest_atm_iv_mem hx
    have := hq q (List.mem_append_left _ hmem) x hqiv
    exact lt_of_le_of_ne this (Ne.symm hne)
  · intro x hx
    obtain ⟨q, hmem, hqiv, hne⟩ := nearest_atm_iv_mem hx
    have := hq q (List.mem_append_right _ hmem) x hqiv
    exact lt_of_le_of_ne this (Ne.symm hne)

/-- Inversion: any non-None result of the estimator arises from a complete
successful pipeline, and is either a direct single-sided IV or the
interpolated radicand. -/
theorem iv30_some_inv (chain : ChainJson)
    (fetch : String → ℤ → Except Fault ExpiryOptions) (t_now : ℤ) (ret : IVRet)
    (h : iv30 chain fetch t_now = some ret) :
    ∃ res quote spot e1 e2 sym b1 b2,
      chain.result = some res ∧ res.quote = some quote
      ∧ quote.regularMarketPrice = some spot
      ∧ pick_expiries (res.expirationDates.getD []) t_now = (some e1, some e2)
      ∧ ¬(e1 = 0 ∨ e2 = 0) ∧ quote.symbol = some sym
      ∧ fetch sym e1 = .ok b1 ∧ fetch sym e2 = .ok b2
      ∧ ((∃ v1, expiry_iv b1 spot = some v1 ∧ expiry_iv b2 spot = none
            ∧ ret = .direct v1)
        ∨ (∃ v2, expiry_iv b1 spot = none ∧ expiry_iv b2 spot = some v2
            ∧ ret = .direct v2)
        ∨ (∃ v1 v2, expiry_iv b1 spot = some v1 ∧ expiry_iv b2 spot = some v2
            ∧ ret = .interp (interpVar v1
                (max 1e-6 (((e1 : ℚ) - (t_now : ℚ)) / 31557600))
                v2
                (max 1e-6 (((e2 : ℚ) - (t_now : ℚ)) / 31557600))))) := by
  rcases hres : chain.result with _ | res
  · simp [iv30, iv30_core, hres] at h
  rcases hq : res.quote with _ | quote
  · simp [iv30, iv30_core, hres, hq] at h
  rcases hspot : quote.regularMarketPrice with _ | spot
  · simp [iv30, iv30_core, hres, hq, hspot] at h
  rcases hpick : pick_expiries (res.expirationDates.getD []) t_now with ⟨e1?, e2?⟩
  rcases e1? with _ | e1
  · simp [iv30, iv30_core, hres, hq, hspot, hpick] at h
  rcases e2? with _ | e2
  · simp [iv30, iv30_core, hres, hq, hspot, hpick] at h
  by_cases h5 : e1 = 0 ∨ e2 = 0
  · simp [iv30, iv30_core, hres, hq, hspot, hpick, h5] at h
  rcases hsym : quote.symbol with _ | sym
  · simp [iv30, iv30_core, hres, hq, hspot, hpick, h5, hsym] at h
  rcases hf1 : fetch sym e1 with f | b1
  · simp [iv30, iv30_core, hres, hq, hspot, hpick, h5, hsym, hf1] at h
  rcases hf2 : fetch sym e2 with f | b2
  · simp [iv30, iv30_core, hres, hq, hspot, hpick, h5, hsym, hf1, hf2] at h
  refine ⟨res, quote, spot, e1, e2, sym, b1, b2, rfl, hq, hspot, hpick, h5, hsym,
    hf1, hf2, ?_⟩
  rcases hv1 : expiry_iv b1 spot with _ | v1 <;>
    rcases hv2 : expiry_iv b2 spot with _ | v2
  · exfalso
    simp [iv30, iv30_core, hres, hq, hspot, hpick, h5, hsym, hf1, hf2, hv1, hv2] at h
  · refine .inr (.inl ⟨v2, rfl, rfl, ?_⟩)
    simp [iv30, iv30_core, hres, hq, hspot, hpick, h5, hsym, hf1, hf2, hv1, hv2] at h
    exact h.symm
  · refine .inl ⟨v1, rfl, rfl, ?_⟩
    simp [iv30, iv30_core, hres, hq, hspot, hpick, h5, hsym, hf1, hf2, hv1, hv2] at h
    exact h.symm
  · refine .inr (.inr ⟨v1, v2, rfl, rfl, ?_⟩)
    simp [iv30, iv30_core, hres, hq, hspot, hpick, h5, hsym, hf1, hf2, hv1, hv2] at h
    exact h.symm

theorem interpVar_ge (iv1 T1 iv2 T2 : ℚ) : 1e-10 ≤ interpVar iv1 T1 iv2 T2 := by
  unfold interpVar
  exact le_max_left _ _

/-- C6: whenever every implied volatility in the fetched option tables is
non-negative (the data model of quotes) and the estimator returns a value,
that value is strictly positive: zero and null IVs are excluded from
nearest-strike selection, and the interpolated branch is floored at
sqrt(1e-10). -/
theorem iv30_positive (chain : ChainJson)
    (fetch : String → ℤ → Except Fault ExpiryOptions) (t_now : ℤ)
    (hfetch : ∀ sym e b, fetch sym e = .ok b →
      ∀ q ∈ b.calls ++ b.puts, ∀ iv, q.impliedVolatility = some iv → 0 ≤ iv) :
    ∀ r : ℝ, iv30val chain fetch t_now = some r → 0 < r := by
  intro r hr
  rcases hmap : iv30 chain fetch t_now with _ | ret
  · rw [iv30val, hmap] at hr
    simp at hr
  rw [iv30val, hmap] at hr
  simp only [Option.map_some', Option.some.injEq] at hr
  obtain ⟨res, quote, spot, e1, e2, sym, b1, b2, _, _, _, _, _, _, hf1, hf2, hcase⟩ :=
    iv30_some_inv chain fetch t_now ret hmap
  rcases hcase with ⟨v1, hv1, hv2, hret⟩ | ⟨v2, hv1, hv2, hret⟩ | ⟨v1, v2, hv1, hv2, hret⟩
  · have hpos := expiry_iv_pos (hfetch sym e1 b1 hf1) hv1
    rw [← hr, hret]
    simpa [IVRet.val] using hpos
  · have hpos := expiry_iv_pos (hfetch sym e2 b2 hf2) hv2
    rw [← hr, hret]
    simpa [IVRet.val] using hpos
  · rw [← hr, hret]
    simp only [IVRet.val]
    apply Real.sqrt_pos.mpr
    have hge : (1e-10 : ℚ) ≤ interpVar v1
        (max 1e-6 (((e1 : ℚ) - (t_now : ℚ)) / 31557600)) v2
        (max 1e-6 (((e2 : ℚ) - (t_now : ℚ)) / 31557600)) := interpVar_ge _ _ _ _
    have hq : (0:ℚ) < interpVar v1
        (max 1e-6 (((e1 : ℚ) - (t_now : ℚ)) / 31557600)) v2
        (max 1e-6 (((e2 : ℚ) - (t_now : ℚ)) / 31557600)) :=
      lt_of_lt_of_le (by norm_num) hge
    exact_mod_cast hq

theorem iv30_positive_witness :
    (0:ℝ) < (((1/5 : ℚ) : ℝ)) :=
  iv30_positive ⟨some ⟨some ⟨some 100, some "T"⟩, some [864000, 3456000]⟩⟩
    (fun _ e => if e = 864000 then .ok ⟨[⟨some 100, some (1/5)⟩], []⟩
                else .ok ⟨[], []⟩) 0
    (by
      intro s e b hb q hq iv hiv
      by_cases he : e = 864000 <;> simp only [he, reduceIte] at hb
      · injection hb with hb'
        rw [← hb'] at hq
        simp only [List.append_nil, List.mem_singleton] at hq
        rw [hq] at hiv
        simp only [Option.some.injEq] at hiv
        rw [← hiv]
        norm_num
      · injection hb with hb'
        rw [← hb'] at hq
        simp at hq)
    (((1/5 : ℚ) : ℝ))
    (by norm_num [iv30val, iv30, iv30_core, pick_expiries, dayOf, pyInt, List.filter,
      Option.orElse, expiry_iv, nearest_atm_iv, atmStep, combineIV, IVRet.val])

theorem pick_expiries_no_future (exp : List ℤ) (t : ℤ)
    (h : ∀ e ∈ exp, e ≤ t + 86400) : pick_expiries exp t = (none, none) := by
  unfold pick_expiries
  have hfilter : exp.filter (fun e => t + 86400 < e) = [] :=
    List.filter_eq_nil_iff.mpr (fun a ha => by simpa using not_lt.mpr (h a ha))
  simp [hfilter]

/-- C5: the estimator never raises past its boundary (it is a total function
into Option): every raised fault inside the body — malformed chain shape,
missing quote block, missing symbol, or a fault of the per-expiry fetch
collaborator — as well as a missing spot price or the absence of any expiry
strictly more than 1 day in the future, yields the explicit unavailable
result none. -/
theorem iv30_faults_unavailable (chain : ChainJson)
    (fetch : String → ℤ → Except Fault ExpiryOptions) (t_now : ℤ) :
    ((∃ f, iv30_core chain fetch t_now = .error f) → iv30 chain fetch t_now = none)
    ∧ (∀ res quote, chain.result = some res → res.quote = some quote →
        quote.regularMarketPrice = none → iv30 chain fetch t_now = none)
    ∧ (∀ res, chain.result = some res →
        (∀ e ∈ res.expirationDates.getD [], e ≤ t_now + 86400) →
        iv30 chain fetch t_now = none)
    ∧ ((∀ s e, fetch s e = .error .raised) → iv30 chain fetch t_now = none) := by
  refine ⟨?_, ?_, ?_, ?_⟩
  · rintro ⟨f, hf⟩
    simp [iv30, hf]
  · intro res quote h1 h2 h3
    simp [iv30, iv30_core, h1, h2, h3]
  · intro res h1 hno
    have hp := pick_expiries_no_future (res.expirationDates.getD []) t_now hno
    rcases hq : res.quote with _ | quote
    · simp [iv30, iv30_core, h1, hq]
    rcases hs : quote.regularMarketPrice with _ | spot
    · simp [iv30, iv30_core, h1, hq, hs]
    · simp [iv30, iv30_core, h1, hq, hs, hp]
  · intro hferr
    rcases hres : chain.result with _ | res
    · simp [iv30, iv30_core, hres]
    rcases hq : res.quote with _ | quote
    · simp [iv30, iv30_core, hres, hq]
    rcases hspot : quote.regularMarketPrice with _ | spot
    · simp [iv30, iv30_core, hres, hq, hspot]
    rcases hpick : pick_expiries (res.expirationDates.getD []) t_now with ⟨e1?, e2?⟩
    rcases e1? with _ | e1
    · simp [iv30, iv30_core, hres, hq, hspot, hpick]
    rcases e2? with _ | e2
    · simp [iv30, iv30_core, hres, hq, hspot, hpick]
    by_cases h5 : e1 = 0 ∨ e2 = 0
    · simp [iv30, iv30_core, hres, hq, hspot, hpick, h5]
    rcases hsym : quote.symbol with _ | sym
    · simp [iv30, iv30_core, hres, hq, hspot, hpick, h5, hsym]
    · simp [iv30, iv30_core, hres, hq, hspot, hpick, h5, hsym, hferr sym e1]

theorem iv30_faults_unavailable_witness :
    iv30 ⟨none⟩ (fun _ _ => .error .raised) 0 = none :=
  (iv30_faults_unavailable ⟨none⟩ (fun _ _ => .error .raised) 0).1 ⟨.raised, rfl⟩

/-- C4 counterexample: with iv1 = iv2 = 1e-6 and year fractions
T1 = 1/20 < Tt = 30/365.25 < T2 = 1/5 (alpha strictly between 0 and 1), the
variance-time interpolation gives varT/Tt = 1e-12, the 1e-10 epsilon floor
engages, and the returned estimate sqrt(1e-10) = 1e-5 exceeds
max(iv1, iv2) = 1e-6: the result does not lie between iv1 and iv2. -/
theorem interp_between_cex :
    ((0:ℚ) < 1e-6) ∧ ((1/20 : ℚ) < 30 / 365.25) ∧ ((30 / 365.25 : ℚ) < 1/5)
    ∧ interp_iv30 1e-6 (1/20) 1e-6 (1/5) = ((1e-5 : ℚ) : ℝ)
    ∧ ¬(interp_iv30 1e-6 (1/20) 1e-6 (1/5) ≤ ((max (1e-6) (1e-6) : ℚ) : ℝ)) := by
  have hvar : interpVar 1e-6 (1/20) 1e-6 (1/5) = 1e-10 := by
    simp only [interpVar]
    rw [show |(1:ℚ)/5 - 1/20| = 3/20 by rw [abs_of_pos] <;> norm_num]
    norm_num
  have hval : interp_iv30 1e-6 (1/20) 1e-6 (1/5) = ((1e-5 : ℚ) : ℝ) := by
    rw [interp_iv30, hvar]
    rw [show ((1e-10 : ℚ) : ℝ) = ((1e-5 : ℚ) : ℝ) * ((1e-5 : ℚ) : ℝ) by push_cast; norm_num]
    exact Real.sqrt_mul_self (by push_cast; norm_num)
  refine ⟨by norm_num, by norm_num, by norm_num, hval, ?_⟩
  rw [hval]
  push_cast
  norm_num

/-- C4 amended: for iv1, iv2 >= 1e-5 (so the 1e-10 variance floor is
inactive), positive T1, and T2 - T1 > 1e-9 (so the true linear alpha is
used), the interpolated estimate lies between min(iv1, iv2) and
max(iv1, iv2) whenever T1 <= Tt <= T2, and it equals iv1 exactly when
T1 = Tt (alpha = 0) and iv2 exactly when T2 = Tt (alpha = 1). -/
theorem interp_iv30_between (iv1 T1 iv2 T2 : ℚ)
    (hiv1 : 1e-5 ≤ iv1) (hiv2 : 1e-5 ≤ iv2)
    (hT1pos : 0 < T1) (hgap : 1e-9 < T2 - T1) :
    (T1 ≤ 30/365.25 → 30/365.25 ≤ T2 →
      ((min iv1 iv2 : ℚ) : ℝ) ≤ interp_iv30 iv1 T1 iv2 T2
      ∧ interp_iv30 iv1 T1 iv2 T2 ≤ ((max iv1 iv2 : ℚ) : ℝ))
    ∧ (T1 = 30/365.25 → interp_iv30 iv1 T1 iv2 T2 = (iv1 : ℝ))
    ∧ (T2 = 30/365.25 → interp_iv30 iv1 T1 iv2 T2 = (iv2 : ℝ)) := by
  have hT2pos : (0:ℚ) < T2 := by linarith
  have hden : (0:ℚ) < T2 - T1 := by linarith
  have hcond : |T2 - T1| > 1e-9 := by rw [abs_of_pos hden]; exact hgap
  have hiv1pos : (0:ℚ) < iv1 := lt_of_lt_of_le (by norm_num) hiv1
  have hiv2pos : (0:ℚ) < iv2 := lt_of_lt_of_le (by norm_num) hiv2
  have hunfold : interp_iv30 iv1 T1 iv2 T2
      = Real.sqrt (((max 1e-10 ((iv1*iv1*T1 + (iv2*iv2*T2 - iv1*iv1*T1)
          * ((30/365.25 - T1)/(T2 - T1))) / (30/365.25)) : ℚ) : ℝ)) := by
    simp only [interp_iv30, interpVar]
    rw [if_pos hcond]
  refine ⟨?_, ?_, ?_⟩
  · intro hT1le hT2ge
    rw [hunfold]
    set a := (30/365.25 - T1)/(T2 - T1) with ha
    have hα0 : (0:ℚ) ≤ a := by rw [ha]; exact div_nonneg (by linarith) hden.le
    have hα1 : a ≤ 1 := by rw [ha]; exact (div_le_one hden).mpr (by linarith)
    have hid : T1 + a * (T2 - T1) = 30/365.25 := by
      rw [ha]
      field_simp
      ring
    have hm_pos : (0:ℚ) < min iv1 iv2 := lt_min hiv1pos hiv2pos
    have hM_pos : (0:ℚ) < max iv1 iv2 := lt_of_lt_of_le hiv1pos (le_max_left _ _)
    have h1sq : min iv1 iv2 * min iv1 iv2 ≤ iv1*iv1 :=
      mul_self_le_mul_self hm_pos.le (min_le_left _ _)
    have h2sq : min iv1 iv2 * min iv1 iv2 ≤ iv2*iv2 :=
      mul_self_le_mul_self hm_pos.le (min_le_right _ _)
    have h1sq' : iv1*iv1 ≤ max iv1 iv2 * max iv1 iv2 :=
      mul_self_le_mul_self hiv1pos.le (le_max_left _ _)
    have h2sq' : iv2*iv2 ≤ max iv1 iv2 * max iv1 iv2 :=
      mul_self_le_mul_self hiv2pos.le (le_max_right _ _)
    have hlow : min iv1 iv2 * min iv1 iv2 * (30/365.25)
        ≤ iv1*iv1*T1 + (iv2*iv2*T2 - iv1*iv1*T1) * a := by
      rw [← hid]
      nlinarith [mul_nonneg (mul_nonneg (sub_nonneg.mpr h1sq) hT1pos.le)
          (sub_nonneg.mpr hα1),
        mul_nonneg (mul_nonneg (sub_nonneg.mpr h2sq) hT2pos.le) hα0]
    have hup : iv1*iv1*T1 + (iv2*iv2*T2 - iv1*iv1*T1) * a
        ≤ max iv1 iv2 * max iv1 iv2 * (30/365.25) := by
      rw [← hid]
      nlinarith [mul_nonneg (mul_nonneg (sub_nonneg.mpr h1sq') hT1pos.le)
          (sub_nonneg.mpr hα1),
        mul_nonneg (mul_nonneg (sub_nonneg.mpr h2sq') hT2pos.le) hα0]
    have hXlow : min iv1 iv2 * min iv1 iv2
        ≤ (iv1*iv1*T1 + (iv2*iv2*T2 - iv1*iv1*T1) * a) / (30/365.25) :=
      (le_div_iff₀ (by norm_num : (0:ℚ) < 30/365.25)).mpr hlow
    have hXup : (iv1*iv1*T1 + (iv2*iv2*T2 - iv1*iv1*T1) * a) / (30/365.25)
        ≤ max iv1 iv2 * max iv1 iv2 :=
      (div_le_iff₀ (by norm_num : (0:ℚ) < 30/365.25)).mpr hup
    have hM5 : (1e-5:ℚ) ≤ max iv1 iv2 := le_trans hiv1 (le_max_left _ _)
    have hmaxlow : min iv1 iv2 * min iv1 iv2
        ≤ max 1e-10 ((iv1*iv1*T1 + (iv2*iv2*T2 - iv1*iv1*T1) * a) / (30/365.25)) :=
      le_max_of_le_right hXlow
    have hmaxup : max 1e-10 ((iv1*iv1*T1 + (iv2*iv2*T2 - iv1*iv1*T1) * a) / (30/365.25))
        ≤ max iv1 iv2 * max iv1 iv2 :=
      max_le (by
        calc (1e-10:ℚ) = 1e-5 * 1e-5 := by norm_num
        _ ≤ max iv1 iv2 * max iv1 iv2 := mul_le_mul hM5 hM5 (by norm_num) hM_pos.le) hXup
    constructor
    · have hstep : ((min iv1 iv2 : ℚ) : ℝ)
          = Real.sqrt (((min iv1 iv2 * min iv1 iv2 : ℚ) : ℝ)) := by
        rw [show ((min iv1 iv2 * min iv1 iv2 : ℚ) : ℝ)
            = ((min iv1 iv2 : ℚ) : ℝ) * ((min iv1 iv2 : ℚ) : ℝ) by push_cast; ring]
        exact (Real.sqrt_mul_self (by exact_mod_cast hm_pos.le)).symm
      rw [hstep]
      exact Real.sqrt_le_sqrt (Rat.cast_le.mpr hmaxlow)
    · have hstep : Real.sqrt (((max iv1 iv2 * max iv1 iv2 : ℚ) : ℝ))
          = ((max iv1 iv2 : ℚ) : ℝ) := by
        rw [show ((max iv1 iv2 * max iv1 iv2 : ℚ) : ℝ)
            = ((max iv1 iv2 : ℚ) : ℝ) * ((max iv1 iv2 : ℚ) : ℝ) by push_cast; ring]
        exact Real.sqrt_mul_self (by exact_mod_cast hM_pos.le)
      rw [← hstep]
      exact Real.sqrt_le_sqrt (Rat.cast_le.mpr hmaxup)
  · intro hT1eq
    rw [hunfold, hT1eq]
    rw [show (30/365.25 - 30/365.25 : ℚ) = 0 by ring, zero_div, mul_zero, add_zero]
    rw [mul_div_assoc, div_self (by norm_num : (30/365.25:ℚ) ≠ 0), mul_one]
    rw [max_eq_right (by
      calc (1e-10:ℚ) = 1e-5 * 1e-5 := by norm_num
      _ ≤ iv1 * iv1 := mul_le_mul hiv1 hiv1 (by norm_num) hiv1pos.le)]
    rw [show ((iv1 * iv1 : ℚ) : ℝ) = (iv1:ℝ) * (iv1:ℝ) by push_cast; ring]
    exact Real.sqrt_mul_self (by exact_mod_cast hiv1pos.le)
  · intro hT2eq
    rw [hunfold, hT2eq]
    rw [div_self (by rw [hT2eq] at hden; exact ne_of_gt hden)]
    rw [mul_one]
    rw [show iv1*iv1*T1 + (iv2*iv2*(30/365.25) - iv1*iv1*T1)
        = iv2*iv2*(30/365.25) by ring]
    rw [mul_div_assoc, div_self (by norm_num : (30/365.25:ℚ) ≠ 0), mul_one]
    rw [max_eq_right (by
      calc (1e-10:ℚ) = 1e-5 * 1e-5 := by norm_num
      _ ≤ iv2 * iv2 := mul_le_mul hiv2 hiv2 (by norm_num) hiv2pos.le)]
    rw [show ((iv2 * iv2 : ℚ) : ℝ) = (iv2:ℝ) * (iv2:ℝ) by push_cast; ring]
    exact Real.sqrt_mul_self (by exact_mod_cast hiv2pos.le)

theorem interp_iv30_between_witness :
    ((min (1/5) (3/10) : ℚ) : ℝ) ≤ interp_iv30 (1/5) (1/20) (3/10) (1/5)
    ∧ interp_iv30 (1/5) (1/20) (3/10) (1/5) ≤ ((max (1/5) (3/10) : ℚ) : ℝ) :=
  (interp_iv30_between (1/5) (1/20) (3/10) (1/5)
    (by norm_num) (by norm_num) (by norm_num) (by norm_num)).1
    (by norm_num) (by norm_num)
